import Mathlib

/-!
Verification development for the pprofrec package (pprofrec.go).

The Go source is shallowly embedded: Go uint64 values are modeled as `Nat`
(with explicit `% 2^64` where overflow matters), Go int/int64 as `Int` (with
explicit wrapping), Go float64 values that are only stored and compared as
exact rationals `ℚ`, and the float64 arithmetic inside `writeHumanBytes` as
exact integer arithmetic together with an explicit model of the
int64-to-float64 rounding step.  Handler output is modeled as a list of
output chunks (document head, table rows, plain text), while the individual
table-cell writers are modeled down to the exact strings they emit.
-/

namespace Pprofrec

/-! ## Machine-integer helpers -/

/-- Reinterpretation of a uint64 bit pattern (a `Nat` below `2^64`) as a
signed two's-complement int64, as performed by Go's `int64(u)` conversion. -/
def int64OfUInt64 (n : Nat) : Int :=
  if n < 2 ^ 63 then (n : Int) else (n : Int) - 2 ^ 64

/-- Go uint64 subtraction `c - p`, which wraps modulo `2^64`.
Intended for `c p < 2^64`. -/
def uint64Sub (c p : Nat) : Nat :=
  (c + (2 ^ 64 - p)) % 2 ^ 64

/-- Wrapping of an integer into the signed two's-complement int64 range,
as performed implicitly by Go int64 arithmetic. -/
def wrap64 (n : Int) : Int :=
  (n + 2 ^ 63) % 2 ^ 64 - 2 ^ 63

/-- Go int64 subtraction `c - p` (wraps on overflow). -/
def int64Sub (c p : Int) : Int :=
  wrap64 (c - p)

/-- Fuel-bounded binary bit-length recursion (the fuel bounds the number of
halvings, exactly 64 for a uint64 input). -/
def bitLenAux : Nat → Nat → Nat
  | 0, _ => 0
  | fuel + 1, n => if n = 0 then 0 else bitLenAux fuel (n / 2) + 1

/-- Model of Go `bits.Len64`: the number of bits required to represent `n`;
the result is 0 for `n = 0`. -/
def bitLen64 (n : Nat) : Nat := bitLenAux 64 n

theorem bitLenAux_le (fuel n : Nat) : bitLenAux fuel n ≤ fuel := by
  induction fuel generalizing n with
  | zero => simp [bitLenAux]
  | succ k ih =>
    simp only [bitLenAux]
    split
    · omega
    · exact Nat.succ_le_succ (ih _)

/-- Rounding of the fraction `n / d` to the nearest natural number,
with ties going to the even candidate (`d > 0` intended).  This is the
rounding used both by IEEE-754 binary64 ("round to nearest, ties to even")
and by Go's fixed-precision decimal formatting of a binary64 value. -/
def roundNEDiv (n d : Nat) : Nat :=
  let q := n / d
  let r := n % d
  if 2 * r < d then q
  else if d < 2 * r then q + 1
  else if q % 2 = 0 then q else q + 1

/-- Model of Go's `float64(b)` conversion of an int64: the integer is rounded
to at most 53 significant bits, ties to even.  Every int64 whose magnitude is
at most `2^53`, or that is a sufficiently even multiple of a power of two, is
represented exactly. -/
def float64OfInt (b : Int) : Int :=
  let a := b.natAbs
  if a ≤ 2 ^ 53 then b
  else
    let u := 2 ^ (bitLen64 a - 53)
    let v := roundNEDiv a u * u
    if b < 0 then -(v : Int) else (v : Int)

/-- Zero-padded three-digit decimal rendering of `n < 1000`. -/
def pad3 (n : Nat) : String :=
  if n < 10 then "00" ++ toString n
  else if n < 100 then "0" ++ toString n
  else toString n

/-- Fixed-point decimal rendering of the rational `num / den` with exactly
three fractional digits (round to nearest, ties to even on the magnitude,
sign rendered separately), modeling Go's `%.3f` applied to the exact binary64
value `num / den` (`den` a positive power of two). -/
def fmt3 (num : Int) (den : Nat) : String :=
  let m := roundNEDiv (num.natAbs * 1000) den
  (if num < 0 then "-" else "") ++ toString (m / 1000) ++ "." ++ pad3 (m % 1000)

/-- The unit characters of `" KMGTPE"`, indexed by tier as in the source. -/
def unitChars : List Char := [' ', 'K', 'M', 'G', 'T', 'P', 'E']

/-! ## Data model (struct types of the source) -/

/-- Go struct `pprofPair`: the six `pprof.Lookup(...).Count()` results
(Go `int`, modeled as `Int`). -/
structure PprofPair where
  goroutine : Int
  threadcreate : Int
  heap : Int
  allocs : Int
  block : Int
  mutex : Int
  deriving DecidableEq

/-- Zero value of `PprofPair`. -/
def PprofPair.zero : PprofPair := ⟨0, 0, 0, 0, 0, 0⟩

/-- The fields of Go `runtime.MemStats` used by the source (uint64 fields as
`Nat`; `NumGC` and `NumForcedGC` are uint32 in Go, also modeled as `Nat`
bounded by `2^32` where it matters). -/
structure MemStats where
  Alloc : Nat
  TotalAlloc : Nat
  Sys : Nat
  Lookups : Nat
  Mallocs : Nat
  Frees : Nat
  HeapAlloc : Nat
  HeapSys : Nat
  HeapIdle : Nat
  HeapInuse : Nat
  HeapReleased : Nat
  HeapObjects : Nat
  StackInuse : Nat
  StackSys : Nat
  MSpanInuse : Nat
  MSpanSys : Nat
  MCacheInuse : Nat
  MCacheSys : Nat
  BuckHashSys : Nat
  GCSys : Nat
  OtherSys : Nat
  NextGC : Nat
  LastGC : Nat
  PauseTotalNs : Nat
  NumGC : Nat
  NumForcedGC : Nat
  deriving DecidableEq

/-- Zero value of `MemStats`. -/
def MemStats.zero : MemStats :=
  ⟨0, 0, 0, 0, 0, 0, 0, 0, 0, 0, 0, 0, 0, 0, 0, 0, 0, 0, 0, 0, 0, 0, 0, 0, 0, 0⟩

/-- Go struct `cpu.TimesStat` (gopsutil): fractional-second CPU counters.
The float64 fields are only ever stored and compared here, so they are
modeled as exact rationals. -/
structure TimesStat where
  User : ℚ
  System : ℚ
  Idle : ℚ
  Nice : ℚ
  Iowait : ℚ
  Irq : ℚ
  Softirq : ℚ
  Steal : ℚ
  Guest : ℚ
  GuestNice : ℚ
  deriving DecidableEq

/-- Zero value of `TimesStat`. -/
def TimesStat.zero : TimesStat := ⟨0, 0, 0, 0, 0, 0, 0, 0, 0, 0⟩

/-- Go struct `process.IOCountersStat` (gopsutil, uint64 fields). -/
structure IOCountersStat where
  ReadCount : Nat
  WriteCount : Nat
  ReadBytes : Nat
  WriteBytes : Nat
  deriving DecidableEq

/-- Zero value of `IOCountersStat`. -/
def IOCountersStat.zero : IOCountersStat := ⟨0, 0, 0, 0⟩

/-- Go struct `process.MemoryInfoStat` (gopsutil, uint64 fields). -/
structure MemoryInfoStat where
  RSS : Nat
  VMS : Nat
  HWM : Nat
  Data : Nat
  Stack : Nat
  Locked : Nat
  Swap : Nat
  deriving DecidableEq

/-- Zero value of `MemoryInfoStat`. -/
def MemoryInfoStat.zero : MemoryInfoStat := ⟨0, 0, 0, 0, 0, 0, 0⟩

/-- Go struct `record`: one point-in-time snapshot.  `ts` is the sample time
(nanoseconds, used only for display). -/
structure record where
  ts : Nat
  memStats : MemStats
  pprofPair : PprofPair
  cpuTimeStat : TimesStat
  iOCounterStat : IOCountersStat
  memoryInfoStat : MemoryInfoStat
  deriving DecidableEq

/-- Go struct `capabilities`. -/
structure capabilities where
  cpuTimeStat : Bool
  iOCounterStat : Bool
  memoryInfoStat : Bool
  deriving DecidableEq

/-! ## Capability prober -/

/-- The sentinel error message matched by `getCapabilities`. -/
def notImplementedMsg : String := "not implemented yet"

/-- Model of `getCapabilities`: each gopsutil probe call is represented by
its error result (`none` for success).  A group is enabled when the probe
returned no error, or returned an error whose message differs from the
sentinel — mirroring `err == nil || err.Error() != "not implemented yet"`. -/
def getCapabilities (cpuErr ioErr memErr : Option String) : capabilities where
  cpuTimeStat := decide (cpuErr = none ∨ cpuErr ≠ some notImplementedMsg)
  iOCounterStat := decide (ioErr = none ∨ ioErr ≠ some notImplementedMsg)
  memoryInfoStat := decide (memErr = none ∨ memErr ≠ some notImplementedMsg)

/-! ## Sampler -/

/-- Result of one gopsutil collection call, mirroring Go's `(*T, error)`
return shape: an optional value (the pointer, `none` for nil) together with
an optional error message. -/
structure GoRes (α : Type) where
  val : Option α
  err : Option String
  deriving DecidableEq

/-- The external readings available at one sampling instant: the current
time, the (never-failing) `runtime.ReadMemStats` and `pprof.Lookup` results,
and the three fallible gopsutil calls. -/
structure sampleInputs where
  now : Nat
  memStats : MemStats
  pprofCounts : PprofPair
  cpuTime : GoRes TimesStat
  ioCounters : GoRes IOCountersStat
  memoryInfo : GoRes MemoryInfoStat
  deriving DecidableEq

/-- Model of `getRecord`: builds the record (every field of the record struct
starts at its zero value; an optional group's field is assigned the pointed-to
value when the group is enabled and the call returned a non-nil pointer, and
is (re)assigned the zero struct when the pointer was nil), together with the
log lines emitted for failed collection calls. -/
def getRecord (c : capabilities) (s : sampleInputs) : record × List String :=
  ({ ts := s.now
     memStats := s.memStats
     pprofPair := s.pprofCounts
     cpuTimeStat :=
       if c.cpuTimeStat then s.cpuTime.val.getD TimesStat.zero else TimesStat.zero
     iOCounterStat :=
       if c.iOCounterStat then s.ioCounters.val.getD IOCountersStat.zero
       else IOCountersStat.zero
     memoryInfoStat :=
       if c.memoryInfoStat then s.memoryInfo.val.getD MemoryInfoStat.zero
       else MemoryInfoStat.zero },
   (if c.cpuTimeStat then
      match s.cpuTime.err with
      | some e => ["pprofrec: failed to get cpu time stats: " ++ e]
      | none => []
    else []) ++
   (if c.iOCounterStat then
      match s.ioCounters.err with
      | some e => ["pprofrec: failed to get io counter stats: " ++ e]
      | none => []
    else []) ++
   (if c.memoryInfoStat then
      match s.memoryInfo.err with
      | some e => ["pprofrec: failed to get memory info stats: " ++ e]
      | none => []
    else []))

/-! ## Window buffer and sampling loop -/

/-- One append step of the Window sampling loop:
`if len(rs) < max { rs = append(rs, r) } else { rs = append(rs[1:], r) }`. -/
def step (max : Nat) (buf : List record) (r : record) : List record :=
  if buf.length < max then buf ++ [r] else buf.drop 1 ++ [r]

/-- Defaulting of `WindowOpts.Window` (nanoseconds): zero becomes 30s. -/
def defaultWindow (w : Int) : Int :=
  if w = 0 then 30 * 1000000000 else w

/-- Defaulting of the frequency option (nanoseconds): zero becomes 1s. -/
def defaultFrequency (f : Int) : Int :=
  if f = 0 then 1000000000 else f

/-- The buffer capacity `max := int((opts.Window / opts.Frequency) + 1)`,
after defaulting.  Go `time.Duration` division is int64 division truncating
toward zero, modeled with `Int.tdiv`; the `Int.toNat` coercion is exact for
the nonnegative configurations considered in the theorems. -/
def windowCap (window frequency : Int) : Nat :=
  (Int.tdiv (defaultWindow window) (defaultFrequency frequency) + 1).toNat

/-- Model of the background sampling goroutine of `Window`: at each timer
tick it first checks the cancellation signal (the `Bool` component of the
tick input, `true` when `ctx.Done()` is closed) and returns the buffer as it
stands if cancelled; otherwise it appends the freshly sampled record and
continues with the remaining ticks. -/
def samplerLoop (max : Nat) : List (Bool × record) → List record → List record
  | [], buf => buf
  | (done, r) :: rest, buf =>
      if done then buf else samplerLoop max rest (step max buf r)

/-! ## Rendering: handler-level output model -/

/-- One chunk written to the HTTP response: the document head (whose column
groups depend on the capabilities), one table row rendered from a
(previous, current) record pair by `writeRow`, or literal text. -/
inductive OutChunk where
  | head (c : capabilities)
  | row (previous current : record)
  | text (s : String)
  deriving DecidableEq

/-- Consecutive (previous, current) pairs produced by a loop that carries the
previous record along, as the row loops in the source do. -/
def rowPairs (previous : record) : List record → List (record × record)
  | [] => []
  | r :: rest => (previous, r) :: rowPairs r rest

/-- The row pairs rendered by a Window GET for buffer contents `rs`,
mirroring the source's switch: no rows for an empty buffer; the single
self-diff row `(rs[0], rs[0])` for one record; and for two or more records
the row `(rs[0], rs[1])` followed by `(rs[i-1], rs[i])` for `i = 2 ..`. -/
def windowRows : List record → List (record × record)
  | [] => []
  | [r] => [(r, r)]
  | r0 :: r1 :: rest => (r0, r1) :: rowPairs r1 rest

/-- The chunk sequence written by the Window handler on a GET: the document
head, then one row chunk per rendered pair. -/
def windowGet (c : capabilities) (rs : List record) : List OutChunk :=
  OutChunk.head c :: (windowRows rs).map (fun pr => OutChunk.row pr.1 pr.2)

/-- Claimed row list, following the spec's words: each row `i ≥ 1` is the
diff of `buffer[i-1]` vs `buffer[i]`, and the first row (`i = 0`) diffs
`buffer[0]` against itself as a zero-delta baseline, giving one row per
buffered record. -/
def windowRowsSpec (rs : List record) : List (record × record) :=
  match rs with
  | [] => []
  | r :: _ => (r, r) :: rs.zip rs.tail

/-- Claimed Window GET output: document head followed by `windowRowsSpec`. -/
def windowGetSpec (c : capabilities) (rs : List record) : List OutChunk :=
  OutChunk.head c :: (windowRowsSpec rs).map (fun pr => OutChunk.row pr.1 pr.2)

/-- Response of the Stream handler, as status code plus chunk sequence. -/
structure streamOutput where
  status : Nat
  chunks : List OutChunk
  deriving DecidableEq

/-- The body written by Go's `http.NotFound` (via `http.Error`). -/
def notFoundText : String := "404 page not found\n"

/-- Model of the Stream handler for one request: `canFlush` states whether
the response writer implements `http.Flusher`; `samples` is the sequence of
records obtained by `getRecord` before the request was cancelled (the first
one is the initial `previous`, the rest are the per-tick samples).  Without
flush support the handler replies through `http.NotFound` (status 404 plus
its plain-text body) and writes nothing else; otherwise it writes the head
and one row per tick, each diffing the previous against the current record. -/
def streamHandler (canFlush : Bool) (c : capabilities) (samples : List record) :
    streamOutput :=
  if canFlush = false then
    { status := 404, chunks := [OutChunk.text notFoundText] }
  else
    { status := 200
      chunks := OutChunk.head c ::
        (match samples with
         | [] => []
         | s0 :: rest => (rowPairs s0 rest).map (fun pr => OutChunk.row pr.1 pr.2)) }

/-! ## Rendering: cell-level string model -/

/-- The cell opener written before every absolute value. -/
def tdOpen : String := "</td><td style=\"padding-left: 10px;\">"

/-- The cell opener of a positive delta. -/
def greenTd : String := "</td><td style=\"color: green;\">"

/-- The cell opener of a negative delta. -/
def redTd : String := "</td><td style=\"color: red;\">"

/-- The cell opener of a zero delta. -/
def grayTd : String := "</td><td style=\"color: gray;\">"

/-- The delta-cell opener chosen by the `switch` on the diff that appears in
every column writer: `diff > 0` green, `diff < 0` red, `diff == 0` gray. -/
def colorTd (diff : Int) : String :=
  if 0 < diff then greenTd else if diff < 0 then redTd else grayTd

/-- Model of `writeIntCol` (returns the written string). -/
def writeIntCol (v diff : Int) : String :=
  tdOpen ++ toString v ++ colorTd diff ++ toString diff

/-- Model of `writeUint64Col` (returns the written string). -/
def writeUint64Col (v : Nat) (diff : Int) : String :=
  tdOpen ++ toString v ++ colorTd diff ++ toString diff

/-- Model of `writeHumanBytes`.  The Go `abs` computation (`uint64(-bytes)`
for negative input) equals `Int.natAbs` for every int64 including the
minimum, whose negation wraps to itself and reinterprets as `2^63`.
`bits.Len64` is `bitLen64`, `" KMGTPE"[base]` is `unitChars.getD base`
(always in bounds for int64 inputs), and the `%.3f` of
`float64(bytes) / float64(1 << (base*10))` is `fmt3` of the rounded
conversion `float64OfInt bytes`: the division by a power of two and the
fixed-precision decimal conversion are exact on top of it. -/
def writeHumanBytes (bytes : Int) : String :=
  if bytes.natAbs < 1024 then toString bytes ++ " B"
  else
    fmt3 (float64OfInt bytes) (2 ^ (bitLen64 bytes.natAbs / 10 * 10)) ++ " " ++
      String.mk [unitChars.getD (bitLen64 bytes.natAbs / 10) ' '] ++ "iB"

/-- Claimed byte formatter, following the spec's words: if `abs b < 1024`,
the literal decimal integer with a " B" suffix; otherwise
`tier = bitlength(abs b) / 10`, the value `b / 1024^tier` printed with
exactly three decimal digits, a space, the unit letter at index `tier` of
`[space, K, M, G, T, P, E]`, and the suffix "iB". -/
def humanBytesSpec (b : Int) : String :=
  if b.natAbs < 1024 then toString b ++ " B"
  else
    fmt3 b (2 ^ (bitLen64 b.natAbs / 10 * 10)) ++ " " ++
      String.mk [unitChars.getD (bitLen64 b.natAbs / 10) ' '] ++ "iB"

/-- Model of `writeBytesCol`: the absolute value is rendered through
`writeHumanBytes(int64(v))`, the delta cell through the diff switch and
`writeHumanBytes(diff)`. -/
def writeBytesCol (v : Nat) (diff : Int) : String :=
  tdOpen ++ writeHumanBytes (int64OfUInt64 v) ++ colorTd diff ++ writeHumanBytes diff

/-- Model of `writePprof`: six int columns whose diffs are Go int
subtractions of the current and previous counts. -/
def writePprof (previous current : PprofPair) : String :=
  writeIntCol current.goroutine (int64Sub current.goroutine previous.goroutine) ++
  writeIntCol current.threadcreate (int64Sub current.threadcreate previous.threadcreate) ++
  writeIntCol current.heap (int64Sub current.heap previous.heap) ++
  writeIntCol current.allocs (int64Sub current.allocs previous.allocs) ++
  writeIntCol current.block (int64Sub current.block previous.block) ++
  writeIntCol current.mutex (int64Sub current.mutex previous.mutex)

/-- Model of `writeIOCounterStat`: each delta is the uint64 subtraction
`current - previous` reinterpreted as int64, i.e. `int64(c - p)`. -/
def writeIOCounterStat (previous current : IOCountersStat) : String :=
  writeUint64Col current.ReadCount
    (int64OfUInt64 (uint64Sub current.ReadCount previous.ReadCount)) ++
  writeUint64Col current.WriteCount
    (int64OfUInt64 (uint64Sub current.WriteCount previous.WriteCount)) ++
  writeBytesCol current.ReadBytes
    (int64OfUInt64 (uint64Sub current.ReadBytes previous.ReadBytes)) ++
  writeBytesCol current.WriteBytes
    (int64OfUInt64 (uint64Sub current.WriteBytes previous.WriteBytes))

/-- Model of `writeMemoryInfoStat`: seven byte columns with uint64-wrapping
deltas reinterpreted as int64. -/
def writeMemoryInfoStat (previous current : MemoryInfoStat) : String :=
  writeBytesCol current.RSS (int64OfUInt64 (uint64Sub current.RSS previous.RSS)) ++
  writeBytesCol current.VMS (int64OfUInt64 (uint64Sub current.VMS previous.VMS)) ++
  writeBytesCol current.HWM (int64OfUInt64 (uint64Sub current.HWM previous.HWM)) ++
  writeBytesCol current.Data (int64OfUInt64 (uint64Sub current.Data previous.Data)) ++
  writeBytesCol current.Stack (int64OfUInt64 (uint64Sub current.Stack previous.Stack)) ++
  writeBytesCol current.Locked (int64OfUInt64 (uint64Sub current.Locked previous.Locked)) ++
  writeBytesCol current.Swap (int64OfUInt64 (uint64Sub current.Swap previous.Swap))

/-! ## Shared helper lemmas and concrete fixtures -/

/-- The probe condition `err == nil || err.Error() != sentinel` holds exactly
when the error is not the sentinel. -/
theorem probe_available_iff (e : Option String) (m : String) :
    (e = none ∨ e ≠ some m) ↔ e ≠ some m := by
  cases e <;> simp

theorem rowPairs_eq_zip (l : List record) (previous : record) :
    rowPairs previous l = (previous :: l).zip l := by
  induction l generalizing previous with
  | nil => rfl
  | cons r rest ih => simp [rowPairs, ih]

/-- Capabilities with every optional group enabled. -/
def capsAll : capabilities := ⟨true, true, true⟩

/-- The all-zero record. -/
def recZero : record :=
  { ts := 0, memStats := MemStats.zero, pprofPair := PprofPair.zero,
    cpuTimeStat := TimesStat.zero, iOCounterStat := IOCountersStat.zero,
    memoryInfoStat := MemoryInfoStat.zero }

/-- A family of records distinguished by their timestamps. -/
def recN (n : Nat) : record := { recZero with ts := n }

/-! ## C6 — capability prober decision rule -/

/-- C6: for each of the three optional stat groups, `getCapabilities` marks
the group available if and only if its single probe attempt either succeeded
or failed with an error other than the "not implemented yet" sentinel;
equivalently, exactly the sentinel error disables the group.  (That the probe
runs once per group and the flags are immutable afterwards is structural in
this functional embedding: `getCapabilities` consumes one probe outcome per
group and its result is never rebuilt.) -/
theorem claim_C6_capability_probe (cpuErr ioErr memErr : Option String) :
    ((getCapabilities cpuErr ioErr memErr).cpuTimeStat = true ↔
      cpuErr ≠ some notImplementedMsg) ∧
    ((getCapabilities cpuErr ioErr memErr).iOCounterStat = true ↔
      ioErr ≠ some notImplementedMsg) ∧
    ((getCapabilities cpuErr ioErr memErr).memoryInfoStat = true ↔
      memErr ≠ some notImplementedMsg) := by
  refine ⟨?_, ?_, ?_⟩ <;>
    simp [getCapabilities, probe_available_iff]

/-! ## C7 — sampler error masking -/

/-- C7 (amended): the sampler always fills the timestamp and the mandatory
memory/profile fields; for each enabled optional group the stored field is
exactly the value returned by that group's single read when one was returned,
and the zero struct when the read yielded no value (nil pointer); every read
error is logged.  Sampling always returns a complete record. -/
theorem claim_C7_sampler_masking (c : capabilities) (s : sampleInputs) :
    ((getRecord c s).1.ts = s.now) ∧
    ((getRecord c s).1.memStats = s.memStats) ∧
    ((getRecord c s).1.pprofPair = s.pprofCounts) ∧
    (c.cpuTimeStat = true →
      ((getRecord c s).1.cpuTimeStat = TimesStat.zero ↔
        (s.cpuTime.val = none ∨ s.cpuTime.val = some TimesStat.zero)) ∧
      (∀ e, s.cpuTime.err = some e →
        ("pprofrec: failed to get cpu time stats: " ++ e) ∈ (getRecord c s).2)) ∧
    (c.iOCounterStat = true →
      ((getRecord c s).1.iOCounterStat = IOCountersStat.zero ↔
        (s.ioCounters.val = none ∨ s.ioCounters.val = some IOCountersStat.zero)) ∧
      (∀ e, s.ioCounters.err = some e →
        ("pprofrec: failed to get io counter stats: " ++ e) ∈ (getRecord c s).2)) ∧
    (c.memoryInfoStat = true →
      ((getRecord c s).1.memoryInfoStat = MemoryInfoStat.zero ↔
        (s.memoryInfo.val = none ∨ s.memoryInfo.val = some MemoryInfoStat.zero)) ∧
      (∀ e, s.memoryInfo.err = some e →
        ("pprofrec: failed to get memory info stats: " ++ e) ∈ (getRecord c s).2)) := by
  refine ⟨rfl, rfl, rfl, ?_, ?_, ?_⟩ <;> intro h
  · constructor
    · cases hv : s.cpuTime.val <;> simp [getRecord, h, hv]
    · intro e he
      simp [getRecord, h, he, List.mem_append]
  · constructor
    · cases hv : s.ioCounters.val <;> simp [getRecord, h, hv]
    · intro e he
      simp [getRecord, h, he, List.mem_append]
  · constructor
    · cases hv : s.memoryInfo.val <;> simp [getRecord, h, hv]
    · intro e he
      simp [getRecord, h, he, List.mem_append]

/-- A nonzero CPU-time struct. -/
def nonzeroTimes : TimesStat := { TimesStat.zero with User := 1 }

/-- Sample inputs whose CPU-time read fails (returns an error) while still
returning a non-nil value. -/
def sampleFail : sampleInputs :=
  { now := 0, memStats := MemStats.zero, pprofCounts := PprofPair.zero,
    cpuTime := ⟨some nonzeroTimes, some "boom"⟩,
    ioCounters := ⟨none, none⟩, memoryInfo := ⟨none, none⟩ }

/-- C7 counterexample to the claim as stated: with the CPU-time group
enabled, a read that fails (error "boom") but still returns a value makes
`getRecord` store that value, not the zero-valued struct — the zero
substitution is keyed on the returned pointer being nil, not on the error. -/
theorem claim_C7_cex :
    sampleFail.cpuTime.err ≠ none ∧
    (getRecord capsAll sampleFail).1.cpuTimeStat ≠ TimesStat.zero := by
  decide

/-- Witness for C7: at the concrete enabled capabilities and failing sample,
the zero-storage iff holds. -/
theorem claim_C7_witness :
    ((getRecord capsAll sampleFail).1.cpuTimeStat = TimesStat.zero ↔
      (sampleFail.cpuTime.val = none ∨ sampleFail.cpuTime.val = some TimesStat.zero)) :=
  ((claim_C7_sampler_masking capsAll sampleFail).2.2.2.1 rfl).1

/-! ## C5 — stream handler flush precondition -/

/-- C5 (amended): when the response sink does not support flush, the Stream
handler replies with status 404 and the standard `http.NotFound` plain-text
body, writing neither the document head nor any row; when the sink supports
flush, the head is written first and the response streams one row per tick. -/
theorem claim_C5_stream_flush (canFlush : Bool) (c : capabilities)
    (samples : List record) :
    (canFlush = false →
      streamHandler canFlush c samples =
        { status := 404, chunks := [OutChunk.text notFoundText] }) ∧
    (canFlush = true →
      (streamHandler canFlush c samples).status = 200 ∧
      ∃ rest, (streamHandler canFlush c samples).chunks = OutChunk.head c :: rest) := by
  constructor
  · rintro rfl
    simp [streamHandler]
  · rintro rfl
    exact ⟨rfl, _, rfl⟩

/-- C5 counterexample to the claim as stated: on a sink without flush
support the handler does write a body — the `http.NotFound` text — so
"writes no body" fails (the head is indeed absent). -/
theorem claim_C5_cex :
    (streamHandler false capsAll []).status = 404 ∧
    (streamHandler false capsAll []).chunks ≠ [] ∧
    OutChunk.text notFoundText ∈ (streamHandler false capsAll []).chunks ∧
    OutChunk.head capsAll ∉ (streamHandler false capsAll []).chunks := by
  decide

/-- Witness for C5: concrete instantiation on a non-flushable sink. -/
theorem claim_C5_witness :
    streamHandler false capsAll [] =
      { status := 404, chunks := [OutChunk.text notFoundText] } :=
  (claim_C5_stream_flush false capsAll []).1 rfl

/-! ## C1 — window render row structure -/

/-- C1 (amended): a Window GET renders the document head followed by: no
rows for an empty buffer; for a single buffered record, exactly the one
self-diff baseline row; and for `n ≥ 2` buffered records, exactly the `n-1`
consecutive-diff rows `(buffer[i-1], buffer[i])` for `i = 1 .. n-1` — that
is, the spec's row list with its leading baseline row dropped, so `n`
records yield `n - 1` rows and no self-diff baseline appears. -/
theorem claim_C1_window_rows (c : capabilities) (rs : List record) :
    (rs = [] → windowGet c rs = [OutChunk.head c]) ∧
    (rs.length = 1 → windowGet c rs = windowGetSpec c rs) ∧
    (2 ≤ rs.length →
      windowGet c rs =
        OutChunk.head c ::
          ((windowRowsSpec rs).drop 1).map (fun pr => OutChunk.row pr.1 pr.2)) := by
  refine ⟨?_, ?_, ?_⟩
  · rintro rfl
    rfl
  · intro h
    cases rs with
    | nil => simp at h
    | cons r t =>
      cases t with
      | nil => rfl
      | cons r1 rest => simp at h
  · intro h
    cases rs with
    | nil => simp at h
    | cons r0 t =>
      cases t with
      | nil => simp at h
      | cons r1 rest =>
        simp [windowGet, windowGetSpec, windowRows, windowRowsSpec, rowPairs_eq_zip]

/-- C1 counterexample to the claim as stated: a buffer of two records
renders a single row (the diff of the two records) rather than the claimed
two rows beginning with a self-diff baseline. -/
theorem claim_C1_cex :
    windowGet capsAll [recN 0, recN 1] ≠ windowGetSpec capsAll [recN 0, recN 1] ∧
    (windowGet capsAll [recN 0, recN 1]).length = 2 ∧
    (windowGetSpec capsAll [recN 0, recN 1]).length = 3 := by
  decide

/-- Witness for C1: concrete two-record instantiation of the amended claim. -/
theorem claim_C1_witness :
    windowGet capsAll [recN 0, recN 1] =
      OutChunk.head capsAll ::
        ((windowRowsSpec [recN 0, recN 1]).drop 1).map
          (fun pr => OutChunk.row pr.1 pr.2) :=
  (claim_C1_window_rows capsAll [recN 0, recN 1]).2.2 (by decide)

/-! ## C2 — window buffer capacity and FIFO eviction -/

/-- For nonnegative configured durations the derived capacity is at least 1. -/
theorem windowCap_pos (window frequency : Int) (hw : 0 ≤ window)
    (hf : 0 ≤ frequency) : 1 ≤ windowCap window frequency := by
  have hw' : 0 ≤ defaultWindow window := by
    unfold defaultWindow; split <;> omega
  have hf' : 0 ≤ defaultFrequency frequency := by
    unfold defaultFrequency; split <;> omega
  have hdiv : 0 ≤ Int.tdiv (defaultWindow window) (defaultFrequency frequency) :=
    Int.tdiv_nonneg hw' hf'
  unfold windowCap
  omega

/-- Folding the source's append-or-evict step from the empty buffer always
yields exactly the trailing `max` samples of the trace, in order. -/
theorem foldl_step_drop (max : Nat) (hmax : 1 ≤ max) (trace : List record) :
    trace.foldl (step max) [] = trace.drop (trace.length - max) := by
  induction trace using List.reverseRecOn with
  | nil => simp
  | append_singleton l x ih =>
    rw [List.foldl_append, ih]
    simp only [List.foldl_cons, List.foldl_nil]
    by_cases hlt : l.length < max
    · have h0 : l.length - max = 0 := by omega
      have h1 : (l ++ [x]).length - max = 0 := by simp; omega
      rw [h0, h1, List.drop_zero, List.drop_zero]
      simp [step, hlt]
    · have hk : (l.drop (l.length - max)).length = max := by
        simp [List.length_drop]; omega
      have hnot : ¬ (l.drop (l.length - max)).length < max := by omega
      simp only [step, if_neg hnot]
      have e1 : (l ++ [x]).drop ((l ++ [x]).length - max) =
          l.drop (l.length + 1 - max) ++ [x] := by
        rw [List.length_append]
        exact List.drop_append_of_le_length (by simp; omega)
      rw [e1, List.drop_drop]
      have e2 : l.length - max + 1 = l.length + 1 - max := by omega
      rw [e2]

/-- C2: for every nonnegatively configured (window, frequency) pair, the
buffer built by the sampling loop from any trace of sampled records is
exactly the trailing `windowCap` (= floor(window/frequency) + 1, after
defaulting) records of the trace in order — hence it never holds more than
that many records, and once at capacity each append evicts exactly the
single oldest record and appends the new one at the end, preserving the
order of the rest (FIFO, no reordering). -/
theorem claim_C2_buffer_fifo (window frequency : Int) (trace : List record)
    (hw : 0 ≤ window) (hf : 0 ≤ frequency) :
    (trace.foldl (step (windowCap window frequency)) []).length ≤
      windowCap window frequency ∧
    trace.foldl (step (windowCap window frequency)) [] =
      trace.drop (trace.length - windowCap window frequency) := by
  have hcap := windowCap_pos window frequency hw hf
  have hfold := foldl_step_drop _ hcap trace
  refine ⟨?_, hfold⟩
  rw [hfold]
  simp only [List.length_drop]
  omega

/-- Witness for C2: the spec's end-to-end scenario — window 3s, frequency 1s
(capacity 4), five samples; the buffer keeps the last four in order. -/
theorem claim_C2_witness :
    (([recN 1, recN 2, recN 3, recN 4, recN 5].foldl
        (step (windowCap 3000000000 1000000000)) []).length ≤
      windowCap 3000000000 1000000000) ∧
    [recN 1, recN 2, recN 3, recN 4, recN 5].foldl
        (step (windowCap 3000000000 1000000000)) [] =
      [recN 1, recN 2, recN 3, recN 4, recN 5].drop
        ([recN 1, recN 2, recN 3, recN 4, recN 5].length -
          windowCap 3000000000 1000000000) :=
  claim_C2_buffer_fifo 3000000000 1000000000 [recN 1, recN 2, recN 3, recN 4, recN 5]
    (by decide) (by decide)

/-! ## C8 — cancellation stops the sampling loop permanently -/

/-- Running the sampling loop over a tick sequence whose first cancelled
tick separates `pre` from `post` builds exactly the buffer of the `pre`
samples and ignores everything at and after the cancellation. -/
theorem samplerLoop_cancel_general (max : Nat) (r : record)
    (post : List (Bool × record)) :
    ∀ (pre : List (Bool × record)) (buf : List record), (∀ x ∈ pre, x.1 = false) →
      samplerLoop max (pre ++ (true, r) :: post) buf =
        (pre.map Prod.snd).foldl (step max) buf := by
  intro pre
  induction pre with
  | nil => intro buf _; rfl
  | cons x pre ih =>
    intro buf h
    obtain ⟨d, rx⟩ := x
    have hd : d = false := h (d, rx) (by simp)
    subst hd
    simp only [List.cons_append, samplerLoop, List.map_cons, List.foldl_cons,
      Bool.false_eq_true, if_false]
    exact ih (step max buf rx) (fun y hy => h y (by simp [hy]))

/-- C8: once the cancellation signal fires, the Window sampling loop exits
at that tick and never resumes — ticks after the cancellation point have no
effect on the buffer (second conjunct), no further records are appended, and
the buffer of the pre-cancellation samples is retained rather than
discarded (first conjunct), so it stays readable by later requests. -/
theorem claim_C8_cancellation (max : Nat) (pre post : List (Bool × record))
    (r : record) (hpre : ∀ x ∈ pre, x.1 = false) :
    samplerLoop max (pre ++ (true, r) :: post) [] =
      (pre.map Prod.snd).foldl (step max) [] ∧
    ∀ post' : List (Bool × record),
      samplerLoop max (pre ++ (true, r) :: post') [] =
        samplerLoop max (pre ++ (true, r) :: post) [] := by
  refine ⟨samplerLoop_cancel_general max r post pre [] hpre, ?_⟩
  intro post'
  rw [samplerLoop_cancel_general max r post pre [] hpre,
    samplerLoop_cancel_general max r post' pre [] hpre]

/-- Witness for C8: two uncancelled ticks, then cancellation; later ticks
are ignored and the two sampled records remain in the buffer. -/
theorem claim_C8_witness :
    samplerLoop 4 [(false, recN 1), (false, recN 2), (true, recN 3),
        (false, recN 4)] [] =
      ([(false, recN 1), (false, recN 2)].map Prod.snd).foldl (step 4) [] ∧
    ∀ post' : List (Bool × record),
      samplerLoop 4 ([(false, recN 1), (false, recN 2)] ++ (true, recN 3) :: post') [] =
        samplerLoop 4 ([(false, recN 1), (false, recN 2)] ++ (true, recN 3) ::
          [(false, recN 4)]) [] :=
  claim_C8_cancellation 4 [(false, recN 1), (false, recN 2)] [(false, recN 4)]
    (recN 3) (by decide)

/-! ## Delta arithmetic and classification lemmas -/

/-- Go's `int64(c - p)` on uint64 operands equals the mathematical
difference wrapped into the signed 64-bit range. -/
theorem int64OfUInt64_uint64Sub (c p : Nat) (_hc : c < 2 ^ 64) (hp : p < 2 ^ 64) :
    int64OfUInt64 (uint64Sub c p) = wrap64 ((c : Int) - p) := by
  unfold int64OfUInt64 uint64Sub wrap64
  split <;> omega

theorem colorTd_eq_gray (d : Int) : colorTd d = grayTd ↔ d = 0 := by
  unfold colorTd
  by_cases h1 : 0 < d
  · rw [if_pos h1]
    exact ⟨fun hh => absurd hh (by decide), fun hh => absurd h1 (by omega)⟩
  · by_cases h2 : d < 0
    · rw [if_neg h1, if_pos h2]
      exact ⟨fun hh => absurd hh (by decide), fun hh => absurd h2 (by omega)⟩
    · rw [if_neg h1, if_neg h2]
      exact ⟨fun _ => by omega, fun _ => rfl⟩

theorem colorTd_eq_green (d : Int) : colorTd d = greenTd ↔ 0 < d := by
  unfold colorTd
  by_cases h1 : 0 < d
  · rw [if_pos h1]
    exact ⟨fun _ => h1, fun _ => rfl⟩
  · by_cases h2 : d < 0
    · rw [if_neg h1, if_pos h2]
      exact ⟨fun hh => absurd hh (by decide), fun hh => absurd hh h1⟩
    · rw [if_neg h1, if_neg h2]
      exact ⟨fun hh => absurd hh (by decide), fun hh => absurd hh h1⟩

theorem colorTd_eq_red (d : Int) : colorTd d = redTd ↔ d < 0 := by
  unfold colorTd
  by_cases h1 : 0 < d
  · rw [if_pos h1]
    exact ⟨fun hh => absurd hh (by decide), fun hh => absurd h1 (by omega)⟩
  · by_cases h2 : d < 0
    · rw [if_neg h1, if_pos h2]
      exact ⟨fun _ => h2, fun _ => rfl⟩
    · rw [if_neg h1, if_neg h2]
      exact ⟨fun hh => absurd hh (by decide), fun hh => absurd hh h2⟩

/-! ## C4 — sign classification of rendered deltas -/

/-- C4 (amended): for the integer-domain columns the delta cell is
classified by the sign of the wrapped difference.  Consequently equality of
current and previous field always yields the neutral (gray) style, and for
the uint64 columns (byte counts, counters) and the int64 columns (profile
counters) the positive/negative styles match the true order of current vs
previous exactly when the mathematical difference lies in
`[-2^63, 2^63)`; outside that interval the classification follows the
wrapped sign.  (The CPU-time columns go through float64 arithmetic and
`time.Duration` truncation and are outside this statement's scope.) -/
theorem claim_C4_classification :
    (∀ c p : Nat, c < 2 ^ 64 → p < 2 ^ 64 →
      (colorTd (int64OfUInt64 (uint64Sub c p)) = grayTd ↔ c = p) ∧
      (-(2 ^ 63) ≤ (c : Int) - p → (c : Int) - p < 2 ^ 63 →
        ((colorTd (int64OfUInt64 (uint64Sub c p)) = greenTd ↔ p < c) ∧
         (colorTd (int64OfUInt64 (uint64Sub c p)) = redTd ↔ c < p)))) ∧
    (∀ ci pi : Int, -(2 ^ 63) ≤ ci → ci < 2 ^ 63 → -(2 ^ 63) ≤ pi → pi < 2 ^ 63 →
      (colorTd (int64Sub ci pi) = grayTd ↔ ci = pi) ∧
      (-(2 ^ 63) ≤ ci - pi → ci - pi < 2 ^ 63 →
        ((colorTd (int64Sub ci pi) = greenTd ↔ pi < ci) ∧
         (colorTd (int64Sub ci pi) = redTd ↔ ci < pi)))) := by
  constructor
  · intro c p hc hp
    rw [int64OfUInt64_uint64Sub c p hc hp]
    refine ⟨?_, fun hl hr => ⟨?_, ?_⟩⟩
    · rw [colorTd_eq_gray]; unfold wrap64; omega
    · rw [colorTd_eq_green]; unfold wrap64; omega
    · rw [colorTd_eq_red]; unfold wrap64; omega
  · intro ci pi h1 h2 h3 h4
    refine ⟨?_, fun hl hr => ⟨?_, ?_⟩⟩
    · rw [colorTd_eq_gray]; unfold int64Sub wrap64; omega
    · rw [colorTd_eq_green]; unfold int64Sub wrap64; omega
    · rw [colorTd_eq_red]; unfold int64Sub wrap64; omega

/-- C4 counterexample to the claim as stated: with previous = 0 and
current = `2^63` (a representable uint64 field value), the current value
exceeds the previous one, yet the rendered delta cell is classified with the
negative (red) style, because the wrapped difference `int64(2^63 - 0)`
is `-2^63 < 0`. -/
theorem claim_C4_cex :
    (0 : Nat) < 2 ^ 63 ∧
    colorTd (int64OfUInt64 (uint64Sub (2 ^ 63) 0)) = redTd ∧
    colorTd (int64OfUInt64 (uint64Sub (2 ^ 63) 0)) ≠ greenTd := by
  decide

/-- Witness for C4: with previous = 1024 and current = 2048 the delta cell
is classified positive (green) exactly because the current value is larger. -/
theorem claim_C4_witness :
    colorTd (int64OfUInt64 (uint64Sub 2048 1024)) = greenTd ↔ (1024 : Nat) < 2048 :=
  ((claim_C4_classification.1 2048 1024 (by decide) (by decide)).2
    (by decide) (by decide)).1

/-! ## C10 — uint64 delta rendering: wrap vs the saturating LastGC column -/

/-- Model of Go `time.Time.Sub` on wall-clock times measured in integer
nanoseconds: the mathematical difference, saturated to the `time.Duration`
int64 range — `minDuration = -2^63` on negative overflow and
`maxDuration = 2^63 - 1` on positive overflow — instead of wrapping, per the
standard library's overflow check in `Time.Sub`. -/
def timeSub (t u : Int) : Int :=
  if t - u < -(2 ^ 63) then -(2 ^ 63)
  else if 2 ^ 63 - 1 < t - u then 2 ^ 63 - 1
  else t - u

/-- Model of the delta of the LastGC column in `writeMemStats`: unlike every
other uint64 column, it is not `int64(c - p)`; both uint64 nanosecond
timestamps are first reinterpreted as int64 (`time.Unix(0, int64(x))`) and
the rendered diff is their saturating `time.Time.Sub` difference. -/
def lastGCDelta (c p : Nat) : Int :=
  timeSub (int64OfUInt64 c) (int64OfUInt64 p)

/-- C10 (amended): for every pair of uint64 field values rendered through
the `int64(c - p)` pattern — all unsigned counter and byte-count columns,
i.e. every uint64 column except LastGC — the rendered delta is the
mathematical difference modulo `2^64` reinterpreted as a signed
two's-complement int64: it equals the true difference exactly when that
difference lies in `[-2^63, 2^63)`, and every difference outside that
interval is rendered with the opposite sign, off by exactly `∓2^64`.  The
LastGC column instead renders the saturating difference of the two
reinterpreted int64 timestamps: its delta always stays in
`[-2^63, 2^63 - 1]` (it clamps, never wraps) and equals the true difference
exactly when both timestamps lie on the same side of `2^63`. -/
theorem claim_C10_wrap_delta (c p : Nat) (hc : c < 2 ^ 64) (hp : p < 2 ^ 64) :
    int64OfUInt64 (uint64Sub c p) = wrap64 ((c : Int) - p) ∧
    (int64OfUInt64 (uint64Sub c p) = (c : Int) - p ↔
      (-(2 ^ 63) ≤ (c : Int) - p ∧ (c : Int) - p < 2 ^ 63)) ∧
    (2 ^ 63 ≤ (c : Int) - p →
      int64OfUInt64 (uint64Sub c p) < 0 ∧
      int64OfUInt64 (uint64Sub c p) = (c : Int) - p - 2 ^ 64) ∧
    ((c : Int) - p < -(2 ^ 63) →
      0 < int64OfUInt64 (uint64Sub c p) ∧
      int64OfUInt64 (uint64Sub c p) = (c : Int) - p + 2 ^ 64) ∧
    (-(2 ^ 63) ≤ lastGCDelta c p ∧ lastGCDelta c p ≤ 2 ^ 63 - 1) ∧
    (lastGCDelta c p = (c : Int) - p ↔
      ((c < 2 ^ 63 ∧ p < 2 ^ 63) ∨ (2 ^ 63 ≤ c ∧ 2 ^ 63 ≤ p))) := by
  have h := int64OfUInt64_uint64Sub c p hc hp
  refine ⟨h, ?_, ?_, ?_, ?_, ?_⟩
  · rw [h]; unfold wrap64; omega
  · rw [h]; unfold wrap64; omega
  · rw [h]; unfold wrap64; omega
  · unfold lastGCDelta timeSub int64OfUInt64
    split_ifs <;> omega
  · unfold lastGCDelta timeSub int64OfUInt64
    split_ifs <;> omega

/-- C10 counterexample to the claim as stated: LastGC is a uint64 field,
but its rendered delta goes through the saturating `time.Time.Sub` of the
reinterpreted timestamps, not the wrapping int64 reinterpretation of
`(c - p) mod 2^64`: at current = `2^63`, previous = `2^63 - 1` the rendered
LastGC delta is the saturated `-2^63`, while the claimed wrapped value is
`+1` (which here is also the true difference) — and the rendered value is
not off by `2^64` from the true difference either. -/
theorem claim_C10_cex :
    lastGCDelta (2 ^ 63) (2 ^ 63 - 1) = -(2 ^ 63) ∧
    int64OfUInt64 (uint64Sub (2 ^ 63) (2 ^ 63 - 1)) = 1 ∧
    ((2 ^ 63 : Nat) : Int) - ((2 ^ 63 - 1 : Nat) : Int) = 1 ∧
    lastGCDelta (2 ^ 63) (2 ^ 63 - 1) ≠
      int64OfUInt64 (uint64Sub (2 ^ 63) (2 ^ 63 - 1)) ∧
    lastGCDelta (2 ^ 63) (2 ^ 63 - 1) ≠ 1 - 2 ^ 64 ∧
    lastGCDelta (2 ^ 63) (2 ^ 63 - 1) ≠ 1 + 2 ^ 64 := by
  decide

/-- Witness for C10: concrete in-range difference rendered exactly by the
wrapping columns, and a concrete same-side LastGC pair rendered exactly. -/
theorem claim_C10_witness :
    (int64OfUInt64 (uint64Sub 0 1) = (0 : Int) - 1 ↔
      (-(2 ^ 63) ≤ (0 : Int) - 1 ∧ (0 : Int) - 1 < 2 ^ 63)) ∧
    (lastGCDelta 0 1 = (0 : Int) - 1 ↔
      (((0 : Nat) < 2 ^ 63 ∧ (1 : Nat) < 2 ^ 63) ∨
       (2 ^ 63 ≤ (0 : Nat) ∧ 2 ^ 63 ≤ (1 : Nat)))) :=
  ⟨(claim_C10_wrap_delta 0 1 (by decide) (by decide)).2.1,
   (claim_C10_wrap_delta 0 1 (by decide) (by decide)).2.2.2.2.2⟩

/-! ## C9 — totality of the byte formatter -/

/-- C9: for every int64 input, including the minimum value whose negation
overflows, the tier index `bitLen64 (natAbs b) / 10` computed by
`writeHumanBytes` is at most 6 — hence always a valid index into the
seven-element unit sequence — and the formatter always produces either a
" B"-suffixed or an "iB"-suffixed string. -/
theorem claim_C9_formatter_total (b : Int) (_h1 : -(2 ^ 63) ≤ b)
    (_h2 : b < 2 ^ 63) :
    bitLen64 b.natAbs / 10 ≤ 6 ∧
    ((∃ s, writeHumanBytes b = s ++ " B") ∨
     (∃ s, writeHumanBytes b = s ++ "iB")) := by
  constructor
  · have := bitLenAux_le 64 b.natAbs
    unfold bitLen64
    omega
  · by_cases hlt : b.natAbs < 1024
    · left
      refine ⟨toString b, ?_⟩
      unfold writeHumanBytes
      rw [if_pos hlt]
    · right
      refine ⟨fmt3 (float64OfInt b) (2 ^ (bitLen64 b.natAbs / 10 * 10)) ++ " " ++
        String.mk [unitChars.getD (bitLen64 b.natAbs / 10) ' '], ?_⟩
      unfold writeHumanBytes
      rw [if_neg hlt]

/-- Witness for C9: the minimum int64 value `-2^63`, whose Go negation
wraps; its absolute value is `2^63`, tier 6 (EiB), still in bounds. -/
theorem claim_C9_witness :
    bitLen64 (-(2 ^ 63) : Int).natAbs / 10 ≤ 6 ∧
    ((∃ s, writeHumanBytes (-(2 ^ 63)) = s ++ " B") ∨
     (∃ s, writeHumanBytes (-(2 ^ 63)) = s ++ "iB")) :=
  claim_C9_formatter_total (-(2 ^ 63)) (by decide) (by decide)

/-! ## C3 — human-readable byte formatting -/

/-- C3 (amended): `writeHumanBytes` agrees with the spec's formula — literal
integer plus " B" below 1024, otherwise `b / 1024^tier` with
`tier = bitlength(abs b) / 10` printed to three decimals with the tier's
unit letter and "iB" — whenever the input is exactly representable as a
float64 (in particular whenever `|b| < 2^53`); the division the code
performs is a float64 division of the rounded conversion `float64(b)`, which
for larger magnitudes can shift the printed third decimal away from exact
division (see the counterexample).  The spec's five concrete examples hold. -/
theorem claim_C3_human_bytes :
    (∀ b : Int, -(2 ^ 63) ≤ b → b < 2 ^ 63 → float64OfInt b = b →
      writeHumanBytes b = humanBytesSpec b) ∧
    writeHumanBytes 0 = "0 B" ∧
    writeHumanBytes 1023 = "1023 B" ∧
    writeHumanBytes 1024 = "1.000 KiB" ∧
    writeHumanBytes 1048576 = "1.000 MiB" ∧
    writeHumanBytes (-2048) = "-2.000 KiB" := by
  refine ⟨?_, by decide, by decide, by decide, by decide, by decide⟩
  intro b _ _ hf
  unfold writeHumanBytes humanBytesSpec
  rw [hf]

/-- C3 counterexample to the claim as stated: at `b = 9008888104601255`
(magnitude just above `2^53`, tier 5) the code formats the float64-rounded
value and prints "8.002 PiB", while exact division `b / 1024^5` rounded to
three decimals per the claim gives "8.001 PiB". -/
theorem claim_C3_cex :
    writeHumanBytes 9008888104601255 ≠ humanBytesSpec 9008888104601255 ∧
    writeHumanBytes 9008888104601255 = "8.002 PiB" ∧
    humanBytesSpec 9008888104601255 = "8.001 PiB" := by
  decide

/-- Witness for C3: the exactly representable input 1024. -/
theorem claim_C3_witness : writeHumanBytes 1024 = humanBytesSpec 1024 :=
  claim_C3_human_bytes.1 1024 (by decide) (by decide) (by decide)

end Pprofrec
